import Mathlib

/-!
Shallow embedding of `src/monitor_plotly.py` (price monitor batch job).

Numeric values flowing through pandas are IEEE doubles.  We model them as
exact rationals together with the special values `inf`, `neginf` and `nan`
(`PVal`): rounding is abstracted away (arithmetic is exact), and signed
zero is collapsed to `num 0`.  The categorical behaviour that the claims
turn on — division by zero producing an infinity for a nonzero numerator
and `nan` for `0/0`, and `fillna` replacing only `nan` — is IEEE-faithful.
-/

namespace PriceMonitor

/-- A pandas/NumPy float value: an exact rational, `inf`, `-inf`, or `NaN`. -/
inductive PVal where
  | num (q : ℚ)
  | inf
  | neginf
  | nan
deriving DecidableEq, Repr

/-- Whether a value is an ordinary (finite) number. -/
def PVal.isNum : PVal → Bool
  | .num _ => true
  | _ => false

/-- IEEE subtraction on the abstracted values. -/
def PVal.sub : PVal → PVal → PVal
  | .nan, _ => .nan
  | _, .nan => .nan
  | .num a, .num b => .num (a - b)
  | .inf, .inf => .nan
  | .inf, _ => .inf
  | .neginf, .neginf => .nan
  | .neginf, _ => .neginf
  | .num _, .inf => .neginf
  | .num _, .neginf => .inf

/-- IEEE multiplication on the abstracted values (signed zero collapsed). -/
def PVal.mul : PVal → PVal → PVal
  | .nan, _ => .nan
  | _, .nan => .nan
  | .num a, .num b => .num (a * b)
  | .num a, .inf => if a > 0 then .inf else if a < 0 then .neginf else .nan
  | .num a, .neginf => if a > 0 then .neginf else if a < 0 then .inf else .nan
  | .inf, .num b => if b > 0 then .inf else if b < 0 then .neginf else .nan
  | .neginf, .num b => if b > 0 then .neginf else if b < 0 then .inf else .nan
  | .inf, .inf => .inf
  | .inf, .neginf => .neginf
  | .neginf, .inf => .neginf
  | .neginf, .neginf => .inf

/-- IEEE division on the abstracted values: `x / 0` is `inf`/`neginf` for a
nonzero numerator and `nan` for `0 / 0` (this is what NumPy float division
does; it warns but does not raise). -/
def PVal.div : PVal → PVal → PVal
  | .nan, _ => .nan
  | _, .nan => .nan
  | .num a, .num b =>
      if b = 0 then (if a > 0 then .inf else if a < 0 then .neginf else .nan)
      else .num (a / b)
  | .num _, .inf => .num 0
  | .num _, .neginf => .num 0
  | .inf, .num b => if b < 0 then .neginf else .inf
  | .neginf, .num b => if b < 0 then .inf else .neginf
  | .inf, _ => .nan
  | .neginf, _ => .nan

/-- `fillna(0.0)` on one value: only `NaN` is replaced (infinities are kept). -/
def PVal.fillna0 : PVal → PVal
  | .nan => .num 0
  | v => v

/-- A loaded history table: the `timestamp` column and the value columns in
pandas column order, each a name paired with its series.  Datetimes are
modelled as integers: `datetime.isoformat()` is injective and
order-preserving on its fixed format, so the chronological order used by
`sort_values("timestamp")` is the integer order. -/
structure DataFrame where
  timestamp : List ℤ
  cols : List (String × List PVal)
deriving DecidableEq, Repr

/-- `Series.pct_change()`: element-wise `cur / prev - 1` against the series
shifted by one (the shifted-in first element is `NaN`). -/
def pct_change (xs : List PVal) : List PVal :=
  List.zipWith (fun cur prev => (cur.div prev).sub (PVal.num 1)) xs (PVal.nan :: xs)

/-- `enrich_with_changes` (lines 51–58): copies the frame, appends one
`<col>_pct` column per non-timestamp column holding `pct_change() * 100.0`,
then applies `fillna(0.0)` to the whole result (all columns). -/
def enrich_with_changes (df : DataFrame) : DataFrame :=
  { timestamp := df.timestamp
    cols :=
      (df.cols ++ df.cols.map (fun c =>
        (c.1 ++ "_pct", (pct_change c.2).map (fun v => v.mul (PVal.num 100))))).map
        (fun c => (c.1, c.2.map PVal.fillna0)) }

/-- One entry of the `assets` list of the YAML configuration: the source-API
identifier, the display name, and the optional alert thresholds (the
optional `color` is purely cosmetic and carried nowhere relevant). -/
structure AssetCfg where
  id : String
  name : String
  upper : Option ℚ
  lower : Option ℚ
deriving DecidableEq, Repr

/-- The alert string for an upper-threshold hit.  The Python code formats the
price with `f"{p:.2f}"`; decimal formatting is abstracted (the claims are
about which alerts fire, not about digit rendering). -/
def upperMsg (name : String) (u p : ℚ) : String :=
  s!"ALERTA: {name} >= {u} -> {p} USD"

/-- The alert string for a lower-threshold hit. -/
def lowerMsg (name : String) (l p : ℚ) : String :=
  s!"ALERTA: {name} <= {l} -> {p} USD"

/-- The body of the `check_alerts` loop: the accumulated alert list after
handling one asset. -/
def alertStep (prices : List (String × ℚ)) (alerts : List String)
    (a : AssetCfg) : List String :=
  match prices.lookup a.name with
  | none => alerts
  | some p =>
    let alerts1 :=
      match a.upper with
      | some u => if p ≥ u then alerts ++ [upperMsg a.name u p] else alerts
      | none => alerts
    match a.lower with
    | some l => if p ≤ l then alerts1 ++ [lowerMsg a.name l p] else alerts1
    | none => alerts1

/-- `check_alerts` (lines 134–145): one pass over the configured assets,
appending an upper alert when `"upper" in a and p >= a["upper"]` and,
independently, a lower alert when `"lower" in a and p <= a["lower"]`;
assets absent from the price mapping (`prices.get(name) is None`) are
skipped.  The price dict is modelled as its ordered key/value items. -/
def check_alerts (prices : List (String × ℚ)) (assets : List AssetCfg) : List String :=
  assets.foldl (alertStep prices) []

/-- The alerts contributed by one asset (the body of the `check_alerts`
loop, as a list). -/
def alertsFor (prices : List (String × ℚ)) (a : AssetCfg) : List String :=
  match prices.lookup a.name with
  | none => []
  | some p =>
    (match a.upper with
     | some u => if p ≥ u then [upperMsg a.name u p] else []
     | none => []) ++
    (match a.lower with
     | some l => if p ≤ l then [lowerMsg a.name l p] else []
     | none => [])

/-- Assignment `d[k] = v` on a Python dict modelled as its ordered items:
an existing key keeps its position and gets the new value, a fresh key is
appended at the end. -/
def dictInsert (m : List (String × ℚ)) (k : String) (v : ℚ) : List (String × ℚ) :=
  if m.any (fun kv => kv.1 == k) then
    m.map (fun kv => if kv.1 == k then (k, v) else kv)
  else m ++ [(k, v)]

/-- The body of the `fetch_prices` loop: handle one asset against the
decoded response. -/
def fetchStep (vs_currency : String) (data : List (String × List (String × ℚ)))
    (prices : List (String × ℚ)) (a : AssetCfg) : List (String × ℚ) :=
  match data.lookup a.id with
  | none => prices
  | some entry =>
    match entry.lookup vs_currency with
    | none => prices
    | some v => dictInsert prices a.name v

/-- `fetch_prices` (lines 19–30), after the HTTP GET: the decoded JSON
response (`{ <id>: { <currency>: <number> } }`) is modelled as nested
association lists.  For each asset whose id is a key of the response and
whose quote-currency key is present under it, `prices[a["name"]] = value`;
everything else is skipped silently. -/
def fetch_prices (assets : List AssetCfg) (vs_currency : String)
    (data : List (String × List (String × ℚ))) : List (String × ℚ) :=
  assets.foldl (fetchStep vs_currency data) []

/-- The price the response offers for one asset, if any. -/
def fetchVal (vs_currency : String) (data : List (String × List (String × ℚ)))
    (a : AssetCfg) : Option ℚ :=
  (data.lookup a.id).bind (fun entry => entry.lookup vs_currency)

/-- The optional `telegram` section of the configuration. -/
structure TelegramCfg where
  bot_token : Option String
  chat_id : Option String

/-- The slice of the configuration that `notify_telegram` reads. -/
structure Config where
  telegram : Option TelegramCfg

/-- `notify_telegram` (lines 148–159).  The network boundary is passed in as
`post`, returning `Except.error` exactly when the real POST would raise; the
function returns the sent/not-sent flag paired with the number of outbound
calls performed.  `cfg.get("telegram", {}).get("bot_token") or ""` maps both
a missing key and an empty string to `""`. -/
def notify_telegram (text : String) (cfg : Config)
    (post : String → String → String → Except String Unit) : Bool × ℕ :=
  let token := ((cfg.telegram.bind TelegramCfg.bot_token).getD "")
  let chat_id := ((cfg.telegram.bind TelegramCfg.chat_id).getD "")
  if token = "" || chat_id = "" then (false, 0)
  else
    match post token chat_id text with
    | Except.ok _ => (true, 1)
    | Except.error _ => (false, 1)

/-- One CSV cell as the typed Python value handed to `csv.writer` /
produced by `pd.read_csv`: a plain string, a float, or a serialized
datetime (`timestamp.isoformat()`; datetimes modelled as integers, the
string round-trip through the file being injective and order-preserving). -/
inductive Cell where
  | s (v : String)
  | n (v : ℚ)
  | t (v : ℤ)
deriving DecidableEq, Repr

/-- A CSV file as its list of rows (each row a list of cells); decimal and
datetime serialization round-trips are abstracted into `Cell`. -/
abbrev CsvFile := List (List Cell)

/-- `append_history` (lines 33–40): `none` models an absent log file.  When
the file does not exist a header row `["timestamp"] + list(prices.keys())`
is written first; then one data row `[timestamp.isoformat()] + values` is
appended.  The `mkdir` of the parent directory has no observable effect on
the file contents and is dropped. -/
def append_history (file : Option CsvFile) (timestamp : ℤ)
    (prices : List (String × ℚ)) : CsvFile :=
  let base : CsvFile :=
    match file with
    | none => [Cell.s "timestamp" :: prices.map (fun kv => Cell.s kv.1)]
    | some rows => rows
  base ++ [Cell.t timestamp :: prices.map (fun kv => Cell.n kv.2)]

/-- The string content of a header cell. -/
def cellStr : Cell → String
  | .s v => v
  | .n _ => ""
  | .t _ => ""

/-- The numeric content of a data cell as `pd.read_csv` delivers it: a
missing trailing cell becomes `NaN` (non-numeric strings in a value column
are outside the modelled well-formed files and also map to `NaN`). -/
def cellVal : Cell → PVal
  | .n v => .num v
  | .s _ => .nan
  | .t _ => .nan

/-- The parsed timestamp of a data row (`parse_dates=["timestamp"]` applied
to the first column). -/
def cellTime : Cell → ℤ
  | .t v => v
  | _ => 0

/-- `pd.read_csv` on `header :: dataRows`: column `j` of the frame holds the
cells at position `j + 1` of every data row, the timestamp column the cells
at position `0`. -/
def parseFrame (colCells : List Cell) (dataRows : List (List Cell)) : DataFrame :=
  { timestamp := dataRows.map (fun r => cellTime (r.getD 0 (Cell.s "")))
    cols := (colCells.map cellStr).enum.map (fun p =>
      (p.2, dataRows.map (fun r => cellVal (r.getD (p.1 + 1) (Cell.s ""))))) }

/-- Row-index comparison by timestamp, the key of `sort_values("timestamp")`. -/
def tsLe (ts : List ℤ) (i j : ℕ) : Prop :=
  ts.getD i 0 ≤ ts.getD j 0

instance (ts : List ℤ) : DecidableRel (tsLe ts) := fun i j =>
  inferInstanceAs (Decidable (ts.getD i 0 ≤ ts.getD j 0))

/-- The row permutation chosen by `sort_values("timestamp")`: the row
indices sorted by timestamp (the sort kind — pandas uses quicksort, we use
insertion sort — only affects tie order, about which nothing is claimed). -/
def sortPerm (ts : List ℤ) : List ℕ :=
  List.insertionSort (tsLe ts) (List.range ts.length)

/-- `df.sort_values("timestamp")`: every column reordered by the same
timestamp-sorted row permutation. -/
def sort_values (df : DataFrame) : DataFrame :=
  { timestamp := (sortPerm df.timestamp).map (fun i => df.timestamp.getD i 0)
    cols := df.cols.map (fun c =>
      (c.1, (sortPerm df.timestamp).map (fun i => c.2.getD i PVal.nan))) }

/-- `load_history` (lines 43–48): `None` for an absent file, otherwise
`pd.read_csv(..., parse_dates=["timestamp"]).sort_values("timestamp")`.
`read_csv` raises `EmptyDataError` on an empty file and `parse_dates`
raises when no `timestamp` column exists; both are modelled as
`Except.error` (the append path never produces them). -/
def load_history (file : Option CsvFile) : Except String (Option DataFrame) :=
  match file with
  | none => Except.ok none
  | some rows =>
    match rows with
    | [] => Except.error "EmptyDataError"
    | header :: dataRows =>
      match header with
      | Cell.s "timestamp" :: colCells =>
          Except.ok (some (sort_values (parseFrame colCells dataRows)))
      | _ => Except.error "no timestamp column"

/-- IEEE addition on the abstracted values (used by rolling / row means). -/
def PVal.add : PVal → PVal → PVal
  | .nan, _ => .nan
  | _, .nan => .nan
  | .num a, .num b => .num (a + b)
  | .inf, .neginf => .nan
  | .inf, _ => .inf
  | .neginf, .inf => .nan
  | .neginf, _ => .neginf
  | .num _, .inf => .inf
  | .num _, .neginf => .neginf

/-- The mean of a full window, `NaN` as soon as the window contains a
non-number (with `min_periods` defaulted to the window size, any `NaN`
in the window makes the rolling mean `NaN`). -/
def windowMean (ys : List PVal) : PVal :=
  if ys.length = 0 ∨ ys.any (fun v => !v.isNum) then PVal.nan
  else (ys.foldl PVal.add (PVal.num 0)).div (PVal.num ys.length)

/-- `Series.rolling(w).mean()`: position `i` is the mean of the last `w`
values when `i + 1 ≥ w`, `NaN` for the first `w - 1` positions.  (pandas
rejects non-positive windows at validation time; `w = 0` is mapped to an
all-`NaN` series and never used by the theorems.) -/
def rollingMean (w : ℕ) (xs : List PVal) : List PVal :=
  (List.range xs.length).map (fun i =>
    if i + 1 < w ∨ w = 0 then PVal.nan
    else windowMean ((xs.take (i + 1)).drop (i + 1 - w)))

/-- Whether a column name carries the `_pct` suffix (`col.endswith("_pct")`,
written on the underlying character lists so that it evaluates). -/
def endsWithPct (s : String) : Bool :=
  "_pct".data.isSuffixOf s.data

/-- A raw-price line trace of the figure: the trace name, whether marker
mode was chosen (`len(df) <= 3`), and the plotted series. -/
structure Trace where
  name : String
  usesMarkers : Bool
  ys : List PVal
deriving DecidableEq, Repr

/-- A moving-average dotted trace: name, window, and plotted series
(`NaN` entries are points Plotly leaves unplotted). -/
structure MATrace where
  name : String
  window : ℕ
  ys : List PVal
deriving DecidableEq, Repr

/-- The renderable content of `build_dashboard`'s two figures, stripped of
purely cosmetic styling (colors, layout, axis titles). -/
structure Dashboard where
  priceTraces : List Trace
  maTraces : List MATrace
  volBars : Option (List PVal)
  tableRows : List (String × PVal × PVal)
deriving DecidableEq, Repr

/-- The cells of row `i` across the given columns. -/
def rowVals (cols : List (String × List PVal)) (i : ℕ) : List PVal :=
  cols.map (fun c => c.2.getD i PVal.nan)

/-- `df[vol_cols].mean(axis=1)` at one row: the mean of the non-`NaN`
entries (`skipna` default), `NaN` when every entry is `NaN` or none exist. -/
def rowMean (vs : List PVal) : PVal :=
  let present := vs.filter (fun v => v ≠ PVal.nan)
  if present.length = 0 then PVal.nan
  else (present.foldl PVal.add (PVal.num 0)).div (PVal.num present.length)

/-- `build_dashboard` (lines 61–131), cosmetics stripped: per non-`_pct`
column one price trace plus one rolling-mean trace per configured window;
the row-wise mean of the `_pct` columns as a zero-filled bar series (only
when `_pct` columns exist); and the latest-values table from `df.iloc[-1]`
(`last_row.get(pct_col, 0.0)` defaults a missing `_pct` column to 0).
`df.iloc[-1]` raises `IndexError` on an empty frame — modelled as `none`. -/
def build_dashboard (df : DataFrame) (ma_windows : List ℕ) : Option Dashboard :=
  let priceCols := df.cols.filter (fun c => !endsWithPct c.1)
  let volCols := df.cols.filter (fun c => endsWithPct c.1)
  match df.timestamp.length with
  | 0 => none
  | Nat.succ m =>
    some
      { priceTraces := priceCols.map (fun c =>
          ⟨c.1, decide (df.timestamp.length ≤ 3), c.2⟩)
        maTraces := priceCols.flatMap (fun c =>
          ma_windows.map (fun w =>
            ⟨c.1 ++ " MA" ++ toString w, w, rollingMean w c.2⟩))
        volBars :=
          if volCols.length ≠ 0 then
            some (((List.range df.timestamp.length).map
              (fun i => rowMean (rowVals volCols i))).map PVal.fillna0)
          else none
        tableRows := priceCols.map (fun c =>
          (c.1, c.2.getD m PVal.nan,
            match df.cols.lookup (c.1 ++ "_pct") with
            | some xs => xs.getD m PVal.nan
            | none => PVal.num 0)) }

/-! ## Helper lemmas -/

lemma alertStep_eq (prices : List (String × ℚ)) (alerts : List String)
    (a : AssetCfg) : alertStep prices alerts a = alerts ++ alertsFor prices a := by
  unfold alertStep alertsFor
  cases prices.lookup a.name with
  | none => simp
  | some p =>
    cases a.upper with
    | none =>
      cases a.lower with
      | none => simp
      | some l => by_cases h : p ≤ l <;> simp [h]
    | some u =>
      cases a.lower with
      | none => by_cases h : p ≥ u <;> simp [h]
      | some l =>
        by_cases h1 : p ≥ u <;> by_cases h2 : p ≤ l <;> simp [h1, h2]

lemma check_alerts_foldl (prices : List (String × ℚ)) :
    ∀ (assets : List AssetCfg) (acc : List String),
      assets.foldl (alertStep prices) acc = acc ++ assets.flatMap (alertsFor prices) := by
  intro assets
  induction assets with
  | nil => intro acc; simp
  | cons a rest ih =>
    intro acc
    simp only [List.foldl_cons, List.flatMap_cons, alertStep_eq, ih, List.append_assoc]

/-! ## Claim theorems -/

/-- C2: `check_alerts` emits alerts exactly per the threshold comparisons:
the whole result is the concatenation, in asset-config order, of each
asset's alerts; an asset contributes at least one alert iff its name has a
price and an `upper` threshold is configured with price ≥ upper or a
`lower` threshold is configured with price ≤ lower; it contributes two
alerts iff both comparisons hold (inverted thresholds); otherwise it
contributes none. -/
theorem check_alerts_spec (prices : List (String × ℚ)) (assets : List AssetCfg) :
    check_alerts prices assets = assets.flatMap (alertsFor prices)
    ∧ ∀ a : AssetCfg,
        (alertsFor prices a ≠ []
          ↔ ∃ p, prices.lookup a.name = some p
              ∧ ((∃ u, a.upper = some u ∧ p ≥ u) ∨ (∃ l, a.lower = some l ∧ p ≤ l)))
        ∧ ((alertsFor prices a).length = 2
          ↔ ∃ p, prices.lookup a.name = some p
              ∧ (∃ u, a.upper = some u ∧ p ≥ u) ∧ (∃ l, a.lower = some l ∧ p ≤ l)) := by
  constructor
  · simpa using check_alerts_foldl prices assets []
  · intro a
    unfold alertsFor
    cases hl : prices.lookup a.name with
    | none => simp
    | some p =>
      cases a.upper with
      | none =>
        cases a.lower with
        | none => simp
        | some l => by_cases h : p ≤ l <;> simp [h]
      | some u =>
        cases a.lower with
        | none => by_cases h : p ≥ u <;> simp [h]
        | some l =>
          by_cases h1 : p ≥ u <;> by_cases h2 : p ≤ l <;> simp [h1, h2]

/-- C3: appending the same prices twice starting from an absent log yields
exactly one header row (`timestamp` followed by the mapping's keys in
mapping order) followed by exactly two data rows; the header is written
only by the first call. -/
theorem append_history_twice (ts : ℤ) (prices : List (String × ℚ))
    (_hne : prices ≠ []) (_hnd : (prices.map Prod.fst).Nodup) :
    append_history (some (append_history none ts prices)) ts prices
      = [Cell.s "timestamp" :: prices.map (fun kv => Cell.s kv.1),
         Cell.t ts :: prices.map (fun kv => Cell.n kv.2),
         Cell.t ts :: prices.map (fun kv => Cell.n kv.2)] := rfl

theorem append_history_twice_witness :
    ((([("BTC", (50000 : ℚ))] : List (String × ℚ)) ≠ [])
      ∧ (([("BTC", (50000 : ℚ))] : List (String × ℚ)).map Prod.fst).Nodup)
    ∧ append_history (some (append_history none 7 [("BTC", (50000 : ℚ))])) 7
        [("BTC", (50000 : ℚ))]
      = [[Cell.s "timestamp", Cell.s "BTC"],
         [Cell.t 7, Cell.n 50000],
         [Cell.t 7, Cell.n 50000]] :=
  ⟨⟨by decide, by decide⟩,
   append_history_twice 7 [("BTC", (50000 : ℚ))] (by decide) (by decide)⟩

/-- C9: an append to an existing log file leaves the existing contents —
header row included — byte-for-byte in place and adds exactly one data row
holding the current mapping's values in mapping key order; nothing is read
from or reconciled against the existing header. -/
theorem append_history_existing (f : CsvFile) (ts : ℤ)
    (prices : List (String × ℚ)) :
    (append_history (some f) ts prices).take f.length = f
    ∧ (append_history (some f) ts prices).length = f.length + 1
    ∧ (append_history (some f) ts prices).drop f.length
        = [Cell.t ts :: prices.map (fun kv => Cell.n kv.2)] := by
  refine ⟨?_, ?_, ?_⟩ <;>
    simp [append_history, List.take_left, List.drop_left]

/-- C4: round-trip — appending `{"BTC": 50000.0}` at timestamp `T` to a
fresh log and loading it back yields exactly one row whose timestamp is `T`
and whose `BTC` value is `50000`. -/
theorem round_trip_single (ts : ℤ) :
    load_history (some (append_history none ts [("BTC", (50000 : ℚ))]))
      = Except.ok (some ⟨[ts], [("BTC", [PVal.num 50000])]⟩) := rfl

/-- C7: `notify_telegram` never raises: with an absent or empty token or
chat id it returns "not sent" having performed zero network calls; with
both credentials present it performs exactly one POST and returns "sent"
iff the POST did not raise (an exception is absorbed into "not sent"); in
all cases at most one call is made and a plain boolean is returned. -/
theorem notify_telegram_spec (text : String) (cfg : Config)
    (post : String → String → String → Except String Unit) :
    ((cfg.telegram.bind TelegramCfg.bot_token).getD "" = ""
        ∨ (cfg.telegram.bind TelegramCfg.chat_id).getD "" = "" →
      notify_telegram text cfg post = (false, 0))
    ∧ ((cfg.telegram.bind TelegramCfg.bot_token).getD "" ≠ ""
        ∧ (cfg.telegram.bind TelegramCfg.chat_id).getD "" ≠ "" →
      (notify_telegram text cfg post).2 = 1
      ∧ ((notify_telegram text cfg post).1 = true
          ↔ (post ((cfg.telegram.bind TelegramCfg.bot_token).getD "")
                  ((cfg.telegram.bind TelegramCfg.chat_id).getD "") text).isOk = true))
    ∧ (notify_telegram text cfg post).2 ≤ 1 := by
  unfold notify_telegram
  refine ⟨?_, ?_, ?_⟩
  · intro h
    rcases h with h | h <;> simp [h]
  · intro ⟨h1, h2⟩
    simp only [h1, h2, if_neg, Bool.or_eq_true, decide_eq_true_eq, false_or]
    rw [if_neg (by simp [h1, h2])]
    cases post ((cfg.telegram.bind TelegramCfg.bot_token).getD "")
        ((cfg.telegram.bind TelegramCfg.chat_id).getD "") text <;>
      simp [Except.isOk, Except.toBool]
  · by_cases h : ((cfg.telegram.bind TelegramCfg.bot_token).getD "" = ""
        || (cfg.telegram.bind TelegramCfg.chat_id).getD "" = "")
    · simp [h]
    · rw [if_neg (by simpa using h)]
      cases post ((cfg.telegram.bind TelegramCfg.bot_token).getD "")
          ((cfg.telegram.bind TelegramCfg.chat_id).getD "") text <;> simp

theorem notify_telegram_spec_witness :
    ((Config.mk none).telegram.bind TelegramCfg.bot_token).getD "" = ""
    ∧ notify_telegram "msg" (Config.mk none) (fun _ _ _ => Except.ok ()) = (false, 0) :=
  ⟨rfl,
   (notify_telegram_spec "msg" (Config.mk none) (fun _ _ _ => Except.ok ())).1
     (Or.inl rfl)⟩

lemma sortPerm_sorted (ts : List ℤ) : (sortPerm ts).Sorted (tsLe ts) := by
  haveI : IsTotal ℕ (tsLe ts) := ⟨fun _ _ => le_total _ _⟩
  haveI : IsTrans ℕ (tsLe ts) := ⟨fun _ _ _ h1 h2 => le_trans h1 h2⟩
  exact List.sorted_insertionSort _ _

lemma sortPerm_perm (ts : List ℤ) :
    List.Perm (sortPerm ts) (List.range ts.length) :=
  List.perm_insertionSort _ _

/-- C5: `load_history` returns the "no data" value on an absent file; on an
existing history file (a `timestamp,…` header row over data rows) it returns
a frame holding every data row exactly once — all columns reordered by one
common row permutation, no filtering — with the timestamp column sorted
ascending and the column names taken from the header. -/
theorem load_history_spec :
    load_history none = Except.ok none
    ∧ ∀ (colCells : List Cell) (dataRows : List (List Cell)),
        ∃ df, load_history (some ((Cell.s "timestamp" :: colCells) :: dataRows))
            = Except.ok (some df)
          ∧ df.timestamp.Sorted (· ≤ ·)
          ∧ (∃ p : List ℕ, List.Perm p (List.range dataRows.length)
              ∧ df.timestamp
                  = p.map (fun i => (parseFrame colCells dataRows).timestamp.getD i 0)
              ∧ df.cols = (parseFrame colCells dataRows).cols.map (fun c =>
                  (c.1, p.map (fun i => c.2.getD i PVal.nan))))
          ∧ df.timestamp.length = dataRows.length
          ∧ df.cols.map Prod.fst = colCells.map cellStr := by
  refine ⟨rfl, fun colCells dataRows => ?_⟩
  refine ⟨sort_values (parseFrame colCells dataRows), rfl, ?_, ?_, ?_, ?_⟩
  · show List.Sorted _ ((sortPerm _).map _)
    rw [List.Sorted, List.pairwise_map]
    exact sortPerm_sorted _
  · refine ⟨sortPerm (parseFrame colCells dataRows).timestamp, ?_, rfl, rfl⟩
    have := sortPerm_perm (parseFrame colCells dataRows).timestamp
    simpa [parseFrame] using this
  · show ((sortPerm _).map _).length = _
    rw [List.length_map, (sortPerm_perm _).length_eq, List.length_range]
    simp [parseFrame]
  · show ((parseFrame colCells dataRows).cols.map _).map Prod.fst = _
    rw [List.map_map]
    have h1 : (Prod.fst ∘ fun c : String × List PVal =>
        (c.1, (sortPerm (parseFrame colCells dataRows).timestamp).map
          (fun i => c.2.getD i PVal.nan))) = Prod.fst := rfl
    rw [h1]
    show ((((colCells.map cellStr).enum).map _).map Prod.fst) = _
    rw [List.map_map]
    have h2 : (Prod.fst ∘ fun p : ℕ × String =>
        (p.2, dataRows.map (fun r => cellVal (r.getD (p.1 + 1) (Cell.s "")))))
        = Prod.snd := rfl
    rw [h2, List.enum_map_snd]

lemma lookup_cons' {β : Type} (nm k : String) (v : β) (rest : List (String × β)) :
    ((k, v) :: rest).lookup nm = if nm = k then some v else rest.lookup nm := by
  simp [List.lookup]
  split <;> simp_all [beq_iff_eq]

lemma any_key_iff (m : List (String × ℚ)) (k : String) :
    m.any (fun kv => kv.1 == k) = true ↔ k ∈ m.map Prod.fst := by
  simp only [List.any_eq_true, beq_iff_eq, List.mem_map]

lemma lookup_not_mem (m : List (String × ℚ)) (k : String)
    (h : k ∉ m.map Prod.fst) : m.lookup k = none := by
  induction m with
  | nil => rfl
  | cons kv rest ih =>
    simp only [List.map_cons, List.mem_cons, not_or] at h
    rw [show kv = (kv.1, kv.2) from rfl, lookup_cons', if_neg h.1]
    exact ih h.2

lemma lookup_map_update (m : List (String × ℚ)) (k : String) (v : ℚ) (nm : String) :
    (m.map (fun kv => if kv.1 == k then (k, v) else kv)).lookup nm
      = if nm = k then (if k ∈ m.map Prod.fst then some v else none)
        else m.lookup nm := by
  have hfun : (fun kv : String × ℚ => if kv.1 == k then (k, v) else kv)
      = (fun kv : String × ℚ => if kv.1 = k then (k, v) else kv) := by
    funext kv; simp [beq_iff_eq]
  rw [hfun]
  induction m with
  | nil => simp
  | cons kv rest ih =>
    obtain ⟨k1, v1⟩ := kv
    simp only [List.map_cons]
    by_cases hk : k1 = k
    · subst hk
      by_cases hnm : nm = k1
      · subst hnm
        simp [lookup_cons']
      · simp [lookup_cons', hnm, ih]
    · have hk2 : ¬(k = k1) := fun h => hk h.symm
      by_cases hnm : nm = k
      · subst hnm
        have hmem : (nm ∈ k1 :: List.map Prod.fst rest) ↔ nm ∈ List.map Prod.fst rest := by
          simp [List.mem_cons, hk2]
        rw [if_neg hk, lookup_cons', if_neg hk2, ih]
        simp only [eq_self_iff_true, if_true]
        exact (if_congr hmem rfl rfl).symm
      · simp [lookup_cons', hk, hnm, ih]

lemma lookup_dictInsert (m : List (String × ℚ)) (k : String) (v : ℚ) (nm : String) :
    (dictInsert m k v).lookup nm = if nm = k then some v else m.lookup nm := by
  unfold dictInsert
  by_cases hmem : m.any (fun kv => kv.1 == k) = true
  · rw [if_pos hmem, lookup_map_update]
    by_cases hnm : nm = k <;> simp [hnm, (any_key_iff m k).1 hmem]
  · rw [if_neg hmem, List.lookup_append]
    have hk : m.lookup k = none :=
      lookup_not_mem m k (fun hh => hmem ((any_key_iff m k).2 hh))
    by_cases hnm : nm = k
    · subst hnm; rw [hk]; simp [lookup_cons']
    · cases h : m.lookup nm <;> simp [h, lookup_cons', hnm]

lemma not_mem_keys_dictInsert (m : List (String × ℚ)) (k : String) (v : ℚ)
    (nm : String) (h1 : nm ∉ m.map Prod.fst) (h2 : nm ≠ k) :
    nm ∉ (dictInsert m k v).map Prod.fst := by
  unfold dictInsert
  split
  · intro hmem
    rw [List.mem_map] at hmem
    obtain ⟨kv, hkv, hfst⟩ := hmem
    rw [List.mem_map] at hkv
    obtain ⟨kv0, hkv0, hupd⟩ := hkv
    by_cases hk : kv0.1 = k
    · rw [← hupd, if_pos (by simpa using hk)] at hfst
      exact h2 hfst.symm
    · rw [← hupd, if_neg (by simpa using hk)] at hfst
      exact h1 (List.mem_map.2 ⟨kv0, hkv0, hfst⟩)
  · simp only [List.map_append, List.mem_append, not_or]
    exact ⟨h1, by simpa using h2⟩

lemma fetchStep_eq (vs : String) (data : List (String × List (String × ℚ)))
    (acc : List (String × ℚ)) (a : AssetCfg) :
    fetchStep vs data acc a
      = match fetchVal vs data a with
        | none => acc
        | some v => dictInsert acc a.name v := by
  unfold fetchStep fetchVal
  cases data.lookup a.id <;> rfl

lemma fetch_foldl_untouched (vs : String) (data : List (String × List (String × ℚ))) :
    ∀ (assets : List AssetCfg) (acc : List (String × ℚ)) (nm : String),
      nm ∉ assets.map AssetCfg.name →
      (assets.foldl (fetchStep vs data) acc).lookup nm = acc.lookup nm := by
  intro assets
  induction assets with
  | nil => intros; rfl
  | cons b rest ih =>
    intro acc nm hnm
    simp only [List.map_cons, List.mem_cons, not_or] at hnm
    rw [List.foldl_cons, ih _ _ hnm.2, fetchStep_eq]
    cases fetchVal vs data b with
    | none => rfl
    | some v =>
      show (dictInsert acc b.name v).lookup nm = acc.lookup nm
      rw [lookup_dictInsert, if_neg hnm.1]

lemma fetch_foldl_mem (vs : String) (data : List (String × List (String × ℚ))) :
    ∀ (assets : List AssetCfg) (acc : List (String × ℚ)),
      (assets.map AssetCfg.name).Nodup →
      (∀ x ∈ assets, x.name ∉ acc.map Prod.fst) →
      ∀ a ∈ assets,
        (assets.foldl (fetchStep vs data) acc).lookup a.name = fetchVal vs data a := by
  intro assets
  induction assets with
  | nil => intro acc _ _ a ha; exact absurd ha (List.not_mem_nil a)
  | cons b rest ih =>
    intro acc hnd hacc a ha
    simp only [List.map_cons, List.nodup_cons] at hnd
    obtain ⟨hbn, hndr⟩ := hnd
    rw [List.foldl_cons]
    rcases List.mem_cons.1 ha with rfl | har
    · rw [fetch_foldl_untouched vs data rest _ _ hbn, fetchStep_eq]
      cases hv : fetchVal vs data a with
      | none =>
        show acc.lookup a.name = none
        exact lookup_not_mem _ _ (hacc a (List.mem_cons_self a rest))
      | some v =>
        show (dictInsert acc a.name v).lookup a.name = some v
        rw [lookup_dictInsert]; simp
    · refine ih _ hndr ?_ a har
      intro x hx
      have hxacc : x.name ∉ acc.map Prod.fst := hacc x (List.mem_cons_of_mem b hx)
      have hxb : x.name ≠ b.name := fun h =>
        hbn (h ▸ List.mem_map_of_mem AssetCfg.name hx)
      rw [fetchStep_eq]
      cases fetchVal vs data b with
      | none => exact hxacc
      | some v => exact not_mem_keys_dictInsert _ _ _ _ hxacc hxb

/-- C6: for asset configs with pairwise distinct display names,
`fetch_prices` records exactly the assets whose source id is a key of the
decoded response with the quote currency present under it (yielding that
value), and records nothing else; missing keys are silently skipped, never
an error. -/
theorem fetch_prices_spec (assets : List AssetCfg) (vs : String)
    (data : List (String × List (String × ℚ)))
    (hnd : (assets.map AssetCfg.name).Nodup) :
    (∀ a ∈ assets, (fetch_prices assets vs data).lookup a.name = fetchVal vs data a)
    ∧ ∀ nm, nm ∉ assets.map AssetCfg.name →
        (fetch_prices assets vs data).lookup nm = none := by
  constructor
  · intro a ha
    exact fetch_foldl_mem vs data assets [] hnd (by simp) a ha
  · intro nm hnm
    rw [fetch_prices, fetch_foldl_untouched vs data assets [] nm hnm]
    rfl

/-- Concrete asset config for the `fetch_prices` witness. -/
def assetW : AssetCfg := ⟨"bitcoin", "BTC", none, none⟩

/-- Concrete decoded response for the `fetch_prices` witness. -/
def dataW : List (String × List (String × ℚ)) := [("bitcoin", [("usd", 50000)])]

theorem fetch_prices_spec_witness :
    (([assetW].map AssetCfg.name).Nodup ∧ assetW ∈ [assetW])
    ∧ (fetch_prices [assetW] "usd" dataW).lookup assetW.name
        = fetchVal "usd" dataW assetW :=
  ⟨⟨by decide, by decide⟩,
   (fetch_prices_spec [assetW] "usd" dataW (by decide)).1 assetW (by decide)⟩

/-- What one enriched percent cell works out to, by the sign of the data:
`100 * (b - a) / a` for a nonzero previous value `a`, and for `a = 0` the
`NaN`-fill result `0` when `b = 0` but an infinity when `b ≠ 0` (the
`fillna(0.0)` replaces only `NaN`, never `±inf`). -/
def pctVal (a b : ℚ) : PVal :=
  if a = 0 then
    (if b = 0 then PVal.num 0 else if 0 < b then PVal.inf else PVal.neginf)
  else PVal.num (100 * (b - a) / a)

/-- The `<col>_pct` column added for one source column, `fillna` applied. -/
def pctCol (c : String × List PVal) : String × List PVal :=
  (c.1 ++ "_pct", ((pct_change c.2).map (fun v => v.mul (PVal.num 100))).map PVal.fillna0)

/-- `fillna(0.0)` applied to one existing column. -/
def fillCol (c : String × List PVal) : String × List PVal :=
  (c.1, c.2.map PVal.fillna0)

lemma enrich_cols_eq (df : DataFrame) :
    (enrich_with_changes df).cols = df.cols.map fillCol ++ df.cols.map pctCol := by
  unfold enrich_with_changes
  rw [List.map_append, List.map_map]
  rfl

lemma length_pct_change (xs : List PVal) : (pct_change xs).length = xs.length := by
  unfold pct_change
  rw [List.length_zipWith]
  simp [Nat.min_def]

lemma length_pctCol (c : String × List PVal) : (pctCol c).2.length = c.2.length := by
  simp [pctCol, length_pct_change]

lemma pctCol_getD (xs : List PVal) (i : ℕ) (hi : i < xs.length) :
    (((pct_change xs).map (fun v => v.mul (PVal.num 100))).map PVal.fillna0).getD i PVal.nan
      = PVal.fillna0
          ((((xs.getD i PVal.nan).div ((PVal.nan :: xs).getD i PVal.nan)).sub
            (PVal.num 1)).mul (PVal.num 100)) := by
  have hlen : i < (((pct_change xs).map (fun v => v.mul (PVal.num 100))).map PVal.fillna0).length := by
    simpa [length_pct_change] using hi
  have hpc : i < (pct_change xs).length := by simpa [length_pct_change] using hi
  have hcons : i < (PVal.nan :: xs).length := by simp; omega
  rw [List.getD_eq_getElem _ _ hlen, List.getElem_map, List.getElem_map]
  unfold pct_change
  rw [List.getElem_zipWith, List.getD_eq_getElem xs _ hi,
    List.getD_eq_getElem (PVal.nan :: xs) _ hcons]

lemma pctCol_getD_zero (xs : List PVal) (h0 : 0 < xs.length) :
    (((pct_change xs).map (fun v => v.mul (PVal.num 100))).map PVal.fillna0).getD 0 PVal.nan
      = PVal.num 0 := by
  rw [pctCol_getD xs 0 h0]
  cases xs.getD 0 PVal.nan <;> rfl

lemma pctCol_getD_succ (xs : List PVal) (i : ℕ) (hi : i + 1 < xs.length) (a b : ℚ)
    (ha : xs.getD i PVal.nan = PVal.num a) (hb : xs.getD (i + 1) PVal.nan = PVal.num b) :
    (((pct_change xs).map (fun v => v.mul (PVal.num 100))).map PVal.fillna0).getD (i + 1)
        PVal.nan
      = pctVal a b := by
  rw [pctCol_getD xs (i + 1) hi]
  have h2 : (PVal.nan :: xs).getD (i + 1) PVal.nan = xs.getD i PVal.nan := rfl
  rw [h2, ha, hb]
  by_cases haz : a = 0
  · subst haz
    by_cases hbz : b = 0
    · subst hbz
      simp [pctVal, PVal.div, PVal.sub, PVal.mul, PVal.fillna0]
    · by_cases hbp : 0 < b
      · simp [pctVal, PVal.div, PVal.sub, PVal.mul, PVal.fillna0, hbz, hbp,
          not_lt.2 (le_of_lt hbp)]
      · have hbn : b < 0 := lt_of_le_of_ne (le_of_not_lt hbp) hbz
        simp [pctVal, PVal.div, PVal.sub, PVal.mul, PVal.fillna0, hbz, hbp, hbn]
  · simp only [PVal.div, if_neg haz, PVal.sub, PVal.mul, PVal.fillna0, pctVal]
    congr 1
    field_simp
    ring

lemma map_fillna0_id (xs : List PVal) (h : ∀ v ∈ xs, v.isNum = true) :
    xs.map PVal.fillna0 = xs := by
  induction xs with
  | nil => rfl
  | cons v rest ih =>
    have hv : PVal.fillna0 v = v := by
      cases v <;> simp_all [PVal.isNum, PVal.fillna0]
    simp only [List.map_cons, hv, ih (fun w hw => h w (List.mem_cons_of_mem v hw))]

/-- C10: `enrich_with_changes` works on a copy (`df.copy()`), so the input
frame is untouched, and — provided the input holds no missing values — the
timestamp column and every original price column reappear unchanged, in
place, at the front of the output; the `fillna(0.0)` at the end touches all
columns, which is why the no-missing-values precondition is needed. -/
theorem enrich_with_changes_preserves (df : DataFrame)
    (hnum : ∀ c ∈ df.cols, ∀ v ∈ c.2, v.isNum = true) :
    (enrich_with_changes df).timestamp = df.timestamp
    ∧ (enrich_with_changes df).cols.take df.cols.length = df.cols := by
  refine ⟨rfl, ?_⟩
  rw [enrich_cols_eq, List.take_left' (by rw [List.length_map])]
  have : ∀ c ∈ df.cols, fillCol c = c := by
    intro c hc
    unfold fillCol
    rw [map_fillna0_id c.2 (hnum c hc)]
  rw [List.map_congr_left this]
  exact List.map_id df.cols

/-- Concrete two-row frame for the enrichment witnesses. -/
def dfW : DataFrame := ⟨[1, 2], [("BTC", [PVal.num 100, PVal.num 150])]⟩

theorem enrich_with_changes_preserves_witness :
    (∀ c ∈ dfW.cols, ∀ v ∈ c.2, v.isNum = true)
    ∧ (enrich_with_changes dfW).timestamp = dfW.timestamp
    ∧ (enrich_with_changes dfW).cols.take dfW.cols.length = dfW.cols :=
  ⟨by decide, (enrich_with_changes_preserves dfW (by decide)).1,
   (enrich_with_changes_preserves dfW (by decide)).2⟩

/-- C1 (amended): on a sorted history table, `enrich_with_changes` keeps
the timestamp column and row count, appends one `<col>_pct` column per
non-timestamp column (names in order), and each `_pct` series has the same
length as its source, value `0` at row 0, and at row `i > 0` the value
`pctVal v_prev v_cur`: `100*(v_i - v_prev)/v_prev` when `v_prev ≠ 0`, `0`
(a `NaN`-fill) when `v_prev = v_i = 0`, but an *infinity* — not `0` — when
`v_prev = 0` and `v_i ≠ 0`, because `fillna` does not replace infinities. -/
theorem enrich_with_changes_spec (df : DataFrame)
    (_hsort : df.timestamp.Sorted (· ≤ ·))
    (hwf : ∀ c ∈ df.cols, c.2.length = df.timestamp.length) :
    (enrich_with_changes df).timestamp = df.timestamp
    ∧ (enrich_with_changes df).cols.length = 2 * df.cols.length
    ∧ (∀ c ∈ (enrich_with_changes df).cols, c.2.length = df.timestamp.length)
    ∧ (enrich_with_changes df).cols.map Prod.fst
        = df.cols.map Prod.fst ++ df.cols.map (fun c => c.1 ++ "_pct")
    ∧ ∀ j, j < df.cols.length →
        ((enrich_with_changes df).cols.getD (df.cols.length + j) ("", []))
            = pctCol (df.cols.getD j ("", []))
        ∧ (0 < (df.cols.getD j ("", [])).2.length →
            (pctCol (df.cols.getD j ("", []))).2.getD 0 PVal.nan = PVal.num 0)
        ∧ ∀ i a b, i + 1 < (df.cols.getD j ("", [])).2.length →
            (df.cols.getD j ("", [])).2.getD i PVal.nan = PVal.num a →
            (df.cols.getD j ("", [])).2.getD (i + 1) PVal.nan = PVal.num b →
            (pctCol (df.cols.getD j ("", []))).2.getD (i + 1) PVal.nan = pctVal a b := by
  refine ⟨rfl, ?_, ?_, ?_, ?_⟩
  · rw [enrich_cols_eq]
    simp [List.length_append, List.length_map]
    omega
  · intro c hc
    rw [enrich_cols_eq] at hc
    rcases List.mem_append.1 hc with hc | hc
    · obtain ⟨c0, hc0, rfl⟩ := List.mem_map.1 hc
      simp [fillCol, hwf c0 hc0]
    · obtain ⟨c0, hc0, rfl⟩ := List.mem_map.1 hc
      rw [length_pctCol]
      exact hwf c0 hc0
  · rw [enrich_cols_eq, List.map_append, List.map_map, List.map_map]
    rfl
  · intro j hj
    refine ⟨?_, fun h0 => pctCol_getD_zero _ h0, fun i a b hi ha hb => ?_⟩
    · rw [enrich_cols_eq]
      have hlen : (df.cols.map fillCol).length ≤ df.cols.length + j := by
        rw [List.length_map]; omega
      have hbound : df.cols.length + j
          < (df.cols.map fillCol ++ df.cols.map pctCol).length := by
        simp [List.length_append, List.length_map]; omega
      rw [List.getD_eq_getElem _ _ hbound, List.getElem_append_right hlen]
      have hjb : df.cols.length + j - (df.cols.map fillCol).length
          < (df.cols.map pctCol).length := by
        simp [List.length_map]; omega
      rw [List.getElem_map]
      congr 1
      rw [List.getD_eq_getElem _ _ (by omega : j < df.cols.length)]
      congr 1
      rw [List.length_map]
      omega
    · exact pctCol_getD_succ _ i hi a b ha hb

theorem enrich_with_changes_spec_witness :
    dfW.timestamp.Sorted (· ≤ ·)
    ∧ (∀ c ∈ dfW.cols, c.2.length = dfW.timestamp.length)
    ∧ (enrich_with_changes dfW).timestamp = dfW.timestamp :=
  ⟨by decide, by decide, (enrich_with_changes_spec dfW (by decide) (by decide)).1⟩

/-- C1 counterexample: on the sorted two-row history with previous value
`0` and current value `5`, the enriched `BTC_pct` value at row 1 is `inf`,
not the `0` the claim's zero-fill clause predicts: `(5-0)/0` is a float
infinity, which `fillna(0.0)` does not replace. -/
theorem enrich_with_changes_zero_prev_cex :
    ((enrich_with_changes ⟨[1, 2], [("BTC", [PVal.num 0, PVal.num 5])]⟩).cols.getD 1
        ("", [])).2.getD 1 PVal.nan = PVal.inf
    ∧ PVal.inf ≠ PVal.num 0 := by
  constructor
  · norm_num [enrich_with_changes, pct_change, PVal.div, PVal.sub, PVal.mul, PVal.fillna0]
  · decide

lemma rollingMean_single (w : ℕ) (x : PVal) (hw : 2 ≤ w) :
    rollingMean w [x] = [PVal.nan] := by
  unfold rollingMean
  rw [show ([x] : List PVal).length = 1 from rfl, show List.range 1 = [0] from rfl]
  simp [show 0 + 1 < w ∨ w = 0 from Or.inl (by omega)]

/-- C8 (amended): on a one-row table `build_dashboard` does not raise, and
every moving-average trace whose window is at least 2 consists of a single
undefined (`NaN`, unplotted) point — zero visible moving-average points;
a window of 1, however, is defined at the single point (see the
counterexample), so the claim holds only for windows ≥ 2. -/
theorem build_dashboard_single_row (df : DataFrame) (ws : List ℕ)
    (h1 : df.timestamp.length = 1)
    (hwf : ∀ c ∈ df.cols, c.2.length = 1)
    (_hws : ∀ w ∈ ws, 1 ≤ w) :
    ∃ d, build_dashboard df ws = some d
      ∧ ∀ t ∈ d.maTraces, 2 ≤ t.window →
          t.ys.length = 1 ∧ ∀ y ∈ t.ys, y = PVal.nan := by
  unfold build_dashboard
  rw [h1]
  refine ⟨_, rfl, ?_⟩
  intro t ht hw2
  simp only [List.mem_flatMap, List.mem_map] at ht
  obtain ⟨c, hc, w, hwmem, rfl⟩ := ht
  have hc2 : c.2.length = 1 := hwf c (List.mem_filter.1 hc).1
  obtain ⟨x, hx⟩ := List.length_eq_one.1 hc2
  refine ⟨?_, ?_⟩
  · show (rollingMean w c.2).length = 1
    rw [hx, rollingMean_single w x hw2]
    rfl
  · intro y hy
    have : y ∈ rollingMean w c.2 := hy
    rw [hx, rollingMean_single w x hw2] at this
    simpa using this

theorem build_dashboard_single_row_witness :
    (⟨[5], [("BTC", [PVal.num 7])]⟩ : DataFrame).timestamp.length = 1
    ∧ (∀ c ∈ (⟨[5], [("BTC", [PVal.num 7])]⟩ : DataFrame).cols, c.2.length = 1)
    ∧ (∀ w ∈ ([2] : List ℕ), 1 ≤ w)
    ∧ ∃ d, build_dashboard ⟨[5], [("BTC", [PVal.num 7])]⟩ [2] = some d
        ∧ ∀ t ∈ d.maTraces, 2 ≤ t.window →
            t.ys.length = 1 ∧ ∀ y ∈ t.ys, y = PVal.nan :=
  ⟨rfl, by decide, by decide,
   build_dashboard_single_row ⟨[5], [("BTC", [PVal.num 7])]⟩ [2] rfl
     (by decide) (by decide)⟩

/-- C8 counterexample: with a configured window of 1, the rolling mean on a
one-row table is the value itself, a defined — hence visible — point, so
"zero visible moving-average points for every configured window" fails. -/
theorem build_dashboard_ma1_cex :
    Option.map (fun d => d.maTraces.map MATrace.ys)
        (build_dashboard ⟨[5], [("BTC", [PVal.num 7])]⟩ [1])
      = some [[PVal.num 7]]
    ∧ PVal.num 7 ≠ PVal.nan := by
  constructor
  · norm_num [build_dashboard, rollingMean, windowMean, rowMean, rowVals,
      PVal.add, PVal.div, PVal.isNum,
      (show endsWithPct "BTC" = false from by decide), List.filter,
      List.range_succ, List.range_zero, List.drop, List.foldl]
  · decide

end PriceMonitor
